import Mathlib

/-!
Verification of the Food-monitor dashboard core (`src/views/HomeView.vue`).

JavaScript strings are modeled as `List Char`; `String.prototype.split` is
embedded as `jsSplit`, `Array.prototype.join` as `jsJoin`, and
`String.prototype.substring (0, n)` as `List.take n`.  Sensor measurements are
modeled as integers (their fractional precision plays no role in any property
considered here).  A JavaScript value that may be `undefined`/`null` is an
`Option`; a computation that may throw a `TypeError` returns an `Option`
result, `none` meaning the exception.  The chronological comparison performed
by the `Date` objects in the filter is modeled by a numeric key that is
strictly monotone in (year, month, day, hour, minute, second) for calendar
components in their valid ranges.
-/

namespace FoodMonitor

/-- JavaScript `s.split(sep)` on a single-character separator:
`''.split(sep) = ['']`, and every occurrence of the separator opens a new
(possibly empty) chunk. -/
def jsSplit (sep : Char) : List Char → List (List Char)
  | [] => [[]]
  | c :: rest =>
    match jsSplit sep rest with
    | [] => [[]]
    | r :: rs => if c = sep then [] :: r :: rs else (c :: r) :: rs

/-- JavaScript `arr.join(sep)` on a single-character separator. -/
def jsJoin (sep : Char) : List (List Char) → List Char
  | [] => []
  | [x] => x
  | x :: xs => x ++ sep :: jsJoin sep xs

theorem jsSplit_ne_nil (sep : Char) (l : List Char) : jsSplit sep l ≠ [] := by
  cases l with
  | nil => simp [jsSplit]
  | cons c rest =>
    simp only [jsSplit]
    cases jsSplit sep rest with
    | nil => simp
    | cons r rs =>
      by_cases h : c = sep <;> simp [h]

theorem jsSplit_of_not_mem {sep : Char} {l : List Char} (h : sep ∉ l) :
    jsSplit sep l = [l] := by
  induction l with
  | nil => rfl
  | cons c rest ih =>
    have hc : c ≠ sep := fun he => h (he ▸ List.mem_cons_self c rest)
    have hr : sep ∉ rest := fun hm => h (List.mem_cons_of_mem c hm)
    simp [jsSplit, ih hr, hc]

theorem jsSplit_append {sep : Char} {l : List Char} (r : List Char)
    (h : sep ∉ l) : jsSplit sep (l ++ sep :: r) = l :: jsSplit sep r := by
  induction l with
  | nil =>
    simp only [List.nil_append, jsSplit]
    cases hr : jsSplit sep r with
    | nil => exact absurd hr (jsSplit_ne_nil sep r)
    | cons a as => simp
  | cons c rest ih =>
    have hc : c ≠ sep := fun he => h (he ▸ List.mem_cons_self c rest)
    have hrest : sep ∉ rest := fun hm => h (List.mem_cons_of_mem c hm)
    simp only [List.cons_append, jsSplit, List.append_eq]
    rw [ih hrest]
    simp [hc]

/-- One sensor sample, as stored in Firestore and consumed by the dashboard.
Any field may be missing from the raw document. -/
structure Reading where
  timestamp : Option (List Char)
  temperature : Option Int
  humidity : Option Int
  pressure : Option Int
deriving DecidableEq

/-- A calendar date as delivered by an `<input type="date">` element
(the source keeps it as a `YYYY-MM-DD` string; an empty string is `none`). -/
structure CalDate where
  year : Nat
  month : Nat
  day : Nat
deriving DecidableEq

/-- Reads a nonempty all-digit character list as a natural number. -/
def digitsToNat : List Char → Option Nat
  | [] => none
  | l => if l.all (·.isDigit) then some (l.foldl (fun a c => a * 10 + (c.toNat - 48)) 0) else none

/-- Chronological key of a local calendar time; strictly monotone in the
lexicographic component order whenever month, day, hour, minute, second are in
their calendar ranges (all `< 100`).  This is the model of comparison between
JavaScript `Date` values built from those components. -/
def dateKey (y mo d h mi s : Nat) : Nat :=
  ((((y * 100 + mo) * 100 + d) * 100 + h) * 100 + mi) * 100 + s

/-- Model of JavaScript `new Date` applied to the template string
`` `${year}-${month}-${day}T${timePart}` `` built by `filteredSensorData`:
the parse succeeds (a valid `Date`) when the pieces form an ISO-like local
datetime — four-digit year, two-digit month/day in range, and a `HH:MM` or
`HH:MM:SS` time in range — and yields the chronological key. -/
def isoDateKey (ys ms ds timePart : List Char) : Option Nat := do
  let y ← digitsToNat ys
  let mo ← digitsToNat ms
  let d ← digitsToNat ds
  if ys.length = 4 ∧ ms.length = 2 ∧ ds.length = 2 ∧
     1 ≤ mo ∧ mo ≤ 12 ∧ 1 ≤ d ∧ d ≤ 31 then
    let tparts := jsSplit ':' timePart
    match tparts with
    | [hs, mis] => do
      let h ← digitsToNat hs
      let mi ← digitsToNat mis
      if hs.length = 2 ∧ mis.length = 2 ∧ h ≤ 23 ∧ mi ≤ 59 then
        some (dateKey y mo d h mi 0)
      else none
    | [hs, mis, ss] => do
      let h ← digitsToNat hs
      let mi ← digitsToNat mis
      let s ← digitsToNat ss
      if hs.length = 2 ∧ mis.length = 2 ∧ ss.length = 2 ∧ h ≤ 23 ∧ mi ≤ 59 ∧ s ≤ 59 then
        some (dateKey y mo d h mi s)
      else none
    | _ => none
  else none

/-- Parse of a reading's timestamp inside the filter predicate
(`HomeView.vue` lines 89-93): split on the space into `datePart`/`timePart`,
split `datePart` on `/` into `[day, month, year]`, rebuild an ISO string and
hand it to `new Date`.  A missing piece interpolates as `undefined` and the
`Date` is invalid, modeled as `none`. -/
def parseTimestamp (ts : List Char) : Option Nat :=
  let parts := jsSplit ' ' ts
  match parts[1]? with
  | none => none
  | some timePart =>
    let dparts := jsSplit '/' (parts.headD [])
    match dparts[0]?, dparts[1]?, dparts[2]? with
    | some ds, some ms, some ys => isoDateKey ys ms ds timePart
    | _, _, _ => none

/-- The reactive state of `HomeView.vue` that the data pipeline touches.
`currentTemperature`/`currentHumidity`/`currentPressure` hold the numeric
value behind the displayed `latest.x?.toFixed(1) || 0` string (the `toFixed`
rendering is a pure function of this value). -/
structure DashState where
  currentTemperature : Int
  currentHumidity : Int
  currentPressure : Int
  currentDate : List Char
  currentTimeOnly : List Char
  currentTime : List Char
  timeCategories : List (List Char)
  temperatureData : List Int
  humidityData : List Int
  pressureData : List Int
  startDate : Option CalDate
  endDate : Option CalDate
  allSensorData : List Reading
  isFilterActive : Bool
deriving DecidableEq

/-- The state right after the component mounts (the `ref(...)` initial
values). -/
def initState : DashState :=
  { currentTemperature := 0
    currentHumidity := 0
    currentPressure := 0
    currentDate := "--/--/----".toList
    currentTimeOnly := "--:--".toList
    currentTime := "--:--".toList
    timeCategories := []
    temperatureData := []
    humidityData := []
    pressureData := []
    startDate := none
    endDate := none
    allSensorData := []
    isFilterActive := false }

/-- The per-reading predicate of the `filter` callback in
`filteredSensorData`: a reading with a falsy timestamp is rejected, otherwise
its parsed `Date` must lie between the two bounds (an invalid `Date` compares
false on both sides). -/
def filterPred (startKey endKey : Nat) (r : Reading) : Bool :=
  match r.timestamp with
  | none => false
  | some ts =>
    if ts.isEmpty then false
    else
      match parseTimestamp ts with
      | some k => decide (startKey ≤ k) && decide (k ≤ endKey)
      | none => false

/-- The `filteredSensorData` computed property: the backing sequence when the
filter is inactive or a bound is unset, else the readings between
`startDate 00:00:00` and `endDate 23:59:59`. -/
def filteredSensorData (s : DashState) : List Reading :=
  match s.isFilterActive, s.startDate, s.endDate with
  | true, some sd, some ed =>
    s.allSensorData.filter
      (filterPred (dateKey sd.year sd.month sd.day 0 0 0)
                  (dateKey ed.year ed.month ed.day 23 59 59))
  | _, _, _ => s.allSensorData

/-- The label computed for one reading in `processAndDisplayData`
(lines 108-119): falsy timestamp gives `''`; otherwise the timestamp is split
on the space, and `timePart.substring(0, 5)` is appended to the first two
`/`-separated fields of the date part.  When the timestamp contains no space,
`timePart` is `undefined` and `.substring` throws a `TypeError`, modeled as
`none`. -/
def labelOf (r : Reading) : Option (List Char) :=
  match r.timestamp with
  | none => some []
  | some ts =>
    if ts.isEmpty then some []
    else
      let parts := jsSplit ' ' ts
      match parts[1]? with
      | none => none
      | some timePart =>
        let shortTime := timePart.take 5
        let shortDate := jsJoin '/' ((jsSplit '/' (parts.headD [])).take 2)
        some (shortDate ++ ' ' :: shortTime)

/-- The value assigned to `currentDate` for a given latest timestamp
(lines 145-152): the part before the first space, or the dash placeholder
when the timestamp or that part is falsy. -/
def currentDateOf (tsOpt : Option (List Char)) : List Char :=
  match tsOpt with
  | some ts =>
    if ts.isEmpty then "--/--/----".toList
    else if ((jsSplit ' ' ts).headD []).isEmpty then "--/--/----".toList
    else (jsSplit ' ' ts).headD []
  | none => "--/--/----".toList

/-- The value assigned to `currentTimeOnly` (lines 145-152): the part after
the first space, `--:--` when it is `undefined` or empty. -/
def currentTimeOnlyOf (tsOpt : Option (List Char)) : List Char :=
  match tsOpt with
  | some ts =>
    if ts.isEmpty then "--:--".toList
    else
      match (jsSplit ' ' ts)[1]? with
      | some t => if t.isEmpty then "--:--".toList else t
      | none => "--:--".toList
  | none => "--:--".toList

/-- The value assigned to `currentTime` (line 155):
`latest.timestamp || '--:--'`. -/
def currentTimeOf (tsOpt : Option (List Char)) : List Char :=
  match tsOpt with
  | some ts => if ts.isEmpty then "--:--".toList else ts
  | none => "--:--".toList

/-- `updateCurrentReadings` (lines 133-156): early return on an empty list,
else every display field is reassigned from the last element (each field's
new value is a function of `latest` alone, so the assignments are recorded
field-wise). -/
def updateCurrentReadings (s : DashState) (data : List Reading) : DashState :=
  match data.getLast? with
  | none => s
  | some latest =>
    { s with
      currentTemperature := latest.temperature.getD 0
      currentHumidity := latest.humidity.getD 0
      currentPressure := latest.pressure.getD 0
      currentDate := currentDateOf latest.timestamp
      currentTimeOnly := currentTimeOnlyOf latest.timestamp
      currentTime := currentTimeOf latest.timestamp }

/-- `processAndDisplayData` (lines 104-130): early return on an empty list;
otherwise the four parallel arrays are fully recomputed and the current
readings updated.  If any label computation throws, the exception escapes
before the first assignment, so none of the modeled fields change
(`updateCharts` only repaints the chart widgets and touches no state here). -/
def processAndDisplayData (s : DashState) (data : List Reading) : DashState :=
  if data.isEmpty then s
  else
    match data.mapM labelOf with
    | none => s
    | some labels =>
      let s1 := { s with
        timeCategories := labels
        temperatureData := data.map (fun r => r.temperature.getD 0)
        humidityData := data.map (fun r => r.humidity.getD 0)
        pressureData := data.map (fun r => r.pressure.getD 0) }
      updateCurrentReadings s1 data

/-- The error taxonomy entry for a rejected filter activation. -/
inductive FilterError
  | IncompleteFilter
deriving DecidableEq

/-- `applyDateFilter` (lines 163-171): with a missing bound it alerts and
returns (the alert is the `IncompleteFilter` rejection); otherwise it raises
the flag and reprocesses the filtered view. -/
def applyDateFilter (s : DashState) : DashState × Option FilterError :=
  if s.startDate = none ∨ s.endDate = none then (s, some FilterError.IncompleteFilter)
  else
    let s1 := { s with isFilterActive := true }
    (processAndDisplayData s1 (filteredSensorData s1), none)

/-- One Firestore snapshot push (the `onSnapshot` callback, lines 533-550):
store the full replacement snapshot, then reprocess the raw data or the
filtered view according to the filter flag. -/
def pushSnapshot (s : DashState) (snapshot : List Reading) : DashState :=
  let s1 := { s with allSensorData := snapshot }
  if s1.isFilterActive = false then processAndDisplayData s1 snapshot
  else processAndDisplayData s1 (filteredSensorData s1)

/-- The alignment invariant: the three metric arrays match the label sequence
in length. -/
def Aligned (s : DashState) : Prop :=
  s.temperatureData.length = s.timeCategories.length ∧
  s.humidityData.length = s.timeCategories.length ∧
  s.pressureData.length = s.timeCategories.length

/-- The first reading of the filter-correctness scenario:
timestamp `01/01/2025 10:00:00`. -/
def r1 : Reading := ⟨some ("01/01/2025 10:00:00".toList), some 20, some 50, some 1000⟩

/-- The second reading of the filter-correctness scenario:
timestamp `02/01/2025 10:00:00`. -/
def r2 : Reading := ⟨some ("02/01/2025 10:00:00".toList), some 21, some 51, some 1001⟩

/-- The store of the filter-correctness scenario: exactly the two readings,
with both filter bounds set to January 1st 2025. -/
def c4State : DashState :=
  { initState with
    allSensorData := [r1, r2]
    startDate := some ⟨2025, 1, 1⟩
    endDate := some ⟨2025, 1, 1⟩ }

/-- A reading whose timestamp is a nonempty string containing no space:
`split(' ')` yields a single chunk, `timePart` is `undefined`, and
`timePart.substring(0, 5)` throws. -/
def badReading : Reading := ⟨some ("garbage".toList), none, none, none⟩

-- ===========================================================================
-- C9
-- ===========================================================================

/-- C9: when the view handed to data processing is empty, the operation
returns without modifying anything — the label sequence, the three metric
arrays and all current-reading display fields keep their previous values
(both `processAndDisplayData` and `updateCurrentReadings` early-return on an
empty list). -/
theorem c9_empty_view_frame :
    (∀ s : DashState, processAndDisplayData s [] = s) ∧
    (∀ s : DashState, updateCurrentReadings s [] = s) := by
  constructor <;> intro s <;> rfl

-- ===========================================================================
-- C5
-- ===========================================================================

/-- C5: a filter activation with a missing bound is rejected with
`IncompleteFilter` and the state — filter flag, backing sequence, derived
series, everything — is returned exactly as it was. -/
theorem c5_incomplete_filter_rejected (s : DashState)
    (h : s.startDate = none ∨ s.endDate = none) :
    applyDateFilter s = (s, some FilterError.IncompleteFilter) := by
  unfold applyDateFilter
  rw [if_pos h]

/-- Witness for C5: a state with only the end bound set is rejected
unchanged. -/
theorem c5_incomplete_filter_rejected_witness :
    ({ initState with endDate := some ⟨2025, 1, 1⟩ } : DashState).startDate = none ∧
    applyDateFilter { initState with endDate := some ⟨2025, 1, 1⟩ } =
      ({ initState with endDate := some ⟨2025, 1, 1⟩ }, some FilterError.IncompleteFilter) :=
  ⟨rfl, c5_incomplete_filter_rejected _ (Or.inl rfl)⟩

-- ===========================================================================
-- C4
-- ===========================================================================

/-- C4: with exactly the readings stamped `01/01/2025 10:00:00` and
`02/01/2025 10:00:00` in the store, activating the filter with start and end
`01/01/2025` succeeds and the filtered view holds exactly the first reading —
the day bounds are inclusive (`00:00:00` to `23:59:59`). -/
theorem c4_filter_day_inclusive :
    (applyDateFilter c4State).2 = none ∧
    (applyDateFilter c4State).1.isFilterActive = true ∧
    filteredSensorData (applyDateFilter c4State).1 = [r1] := by
  refine ⟨by decide, by decide, by decide⟩

-- ===========================================================================
-- C10
-- ===========================================================================

/-- C10: under an active date-range filter a reading with an absent timestamp
is excluded from the filtered view, while with the filter inactive the same
reading is still present in the (unfiltered) view. -/
theorem c10_absent_timestamp_excluded (s : DashState) (r : Reading)
    (sd ed : CalDate) (hr : r.timestamp = none) (hmem : r ∈ s.allSensorData)
    (ha : s.isFilterActive = true) (hs : s.startDate = some sd)
    (he : s.endDate = some ed) :
    r ∉ filteredSensorData s ∧
    r ∈ filteredSensorData { s with isFilterActive := false } := by
  constructor
  · intro hin
    rw [filteredSensorData, ha, hs, he] at hin
    simp only [List.mem_filter] at hin
    rw [filterPred, hr] at hin
    exact Bool.noConfusion hin.2
  · rw [filteredSensorData]
    exact hmem

/-- The store of the C10 witness: an active filter over a backing sequence
holding one timestamp-less reading. -/
def c10State : DashState :=
  { c4State with
    isFilterActive := true
    allSensorData := [⟨none, some 5, none, none⟩] }

/-- Witness for C10: a timestamp-less reading sits in the backing sequence
of an actively filtered store; it is dropped from the filtered view and kept
by the unfiltered one. -/
theorem c10_absent_timestamp_excluded_witness :
    (⟨none, some 5, none, none⟩ : Reading).timestamp = none ∧
    (⟨none, some 5, none, none⟩ : Reading) ∈ c10State.allSensorData ∧
    ((⟨none, some 5, none, none⟩ : Reading) ∉ filteredSensorData c10State ∧
      (⟨none, some 5, none, none⟩ : Reading) ∈
        filteredSensorData { c10State with isFilterActive := false }) :=
  ⟨rfl, by decide,
    c10_absent_timestamp_excluded _ _ ⟨2025, 1, 1⟩ ⟨2025, 1, 1⟩ rfl (by decide) rfl rfl rfl⟩

-- ===========================================================================
-- C6
-- ===========================================================================

/-- C6 counterexample: the reading with the space-free nonempty timestamp
`garbage` makes the label derivation throw (`timePart` is `undefined`, so
`timePart.substring(0, 5)` raises a `TypeError`, modeled as `none`); in
particular it does not contribute an empty label, so the derivation is not
total as the claim states. -/
theorem c6_label_counterexample :
    labelOf badReading = none ∧ labelOf badReading ≠ some [] := by decide

/-- C6 (amended): a reading with an absent or empty timestamp contributes an
empty label; a reading whose nonempty timestamp contains no space makes the
derivation throw; and a reading with a space-separated
`DD/MM/YYYY HH:MM:SS`-shaped timestamp contributes the
`<day/month> <hour:minute>` label. -/
theorem c6_label_derivation_amended :
    (∀ r : Reading, (r.timestamp = none ∨ r.timestamp = some []) → labelOf r = some []) ∧
    (∀ (r : Reading) (ts : List Char), r.timestamp = some ts → ts ≠ [] → ' ' ∉ ts →
      labelOf r = none) ∧
    (∀ (r : Reading) (d mo y h mi sec : List Char),
      r.timestamp = some (d ++ '/' :: (mo ++ '/' :: (y ++ ' ' :: (h ++ ':' :: (mi ++ ':' :: sec))))) →
      ' ' ∉ d → ' ' ∉ mo → ' ' ∉ y → ' ' ∉ h → ' ' ∉ mi → ' ' ∉ sec →
      '/' ∉ d → '/' ∉ mo → '/' ∉ y →
      h.length = 2 → mi.length = 2 →
      labelOf r = some (d ++ '/' :: (mo ++ ' ' :: (h ++ ':' :: mi)))) := by
  refine ⟨?_, ?_, ?_⟩
  · intro r hr
    rcases hr with hr | hr <;> simp [labelOf, hr]
  · intro r ts hr hne hsp
    have hempty : ts.isEmpty = false := by
      cases ts with
      | nil => exact absurd rfl hne
      | cons a as => rfl
    rw [labelOf, hr]
    simp only [hempty, Bool.false_eq_true, if_false]
    rw [jsSplit_of_not_mem hsp]
    rfl
  · intro r d mo y h mi sec hr hd hmo hy hh hmi hsec hd2 hmo2 hy2 hlen hlen2
    obtain ⟨a, b, hab⟩ := List.length_eq_two.mp hlen
    obtain ⟨c, e, hce⟩ := List.length_eq_two.mp hlen2
    subst hab hce
    have hts : (d ++ '/' :: (mo ++ '/' :: (y ++ ' ' :: ([a,b] ++ ':' :: ([c,e] ++ ':' :: sec)))))
        = (d ++ '/' :: (mo ++ '/' :: y)) ++ ' ' :: ([a,b] ++ ':' :: ([c,e] ++ ':' :: sec)) := by
      simp [List.append_assoc]
    have hdate : ' ' ∉ d ++ '/' :: (mo ++ '/' :: y) := by
      intro hcon
      rcases List.mem_append.mp hcon with h1 | h1
      · exact hd h1
      rcases List.mem_cons.mp h1 with h2 | h2
      · exact absurd h2 (by decide)
      rcases List.mem_append.mp h2 with h3 | h3
      · exact hmo h3
      rcases List.mem_cons.mp h3 with h4 | h4
      · exact absurd h4 (by decide)
      exact hy h4
    have htime : ' ' ∉ [a, b] ++ ':' :: ([c, e] ++ ':' :: sec) := by
      intro hcon
      rcases List.mem_append.mp hcon with h1 | h1
      · exact hh h1
      rcases List.mem_cons.mp h1 with h2 | h2
      · exact absurd h2 (by decide)
      rcases List.mem_append.mp h2 with h3 | h3
      · exact hmi h3
      rcases List.mem_cons.mp h3 with h4 | h4
      · exact absurd h4 (by decide)
      exact hsec h4
    have hempty : ((d ++ '/' :: (mo ++ '/' :: y)) ++ ' ' :: ([a,b] ++ ':' :: ([c,e] ++ ':' :: sec))).isEmpty = false := by
      cases d <;> rfl
    rw [labelOf, hr, hts]
    simp only [hempty, Bool.false_eq_true, if_false]
    rw [jsSplit_append _ hdate, jsSplit_of_not_mem htime]
    simp only [List.getElem?_cons_succ, List.getElem?_cons_zero, List.headD_cons]
    have hsplit2 : jsSplit '/' (d ++ '/' :: (mo ++ '/' :: y)) = [d, mo, y] := by
      rw [jsSplit_append _ hd2, jsSplit_append _ hmo2, jsSplit_of_not_mem hy2]
    rw [hsplit2]
    have htake : ([a, b] ++ ':' :: ([c, e] ++ ':' :: sec)).take 5 = [a, b, ':', c, e] := rfl
    have hjoin : jsJoin '/' ([d, mo, y].take 2) = d ++ '/' :: mo := rfl
    rw [htake, hjoin]
    simp [List.append_assoc]


/-- Witness for C6 (amended): the well-formed timestamp
`01/01/2025 10:00:00` yields the label `01/01 10:00`, and an absent timestamp
yields the empty label. -/
theorem c6_label_derivation_amended_witness :
    labelOf r1 =
      some ("01".toList ++ '/' :: ("01".toList ++ ' ' :: ("10".toList ++ ':' :: "00".toList))) ∧
    labelOf ⟨none, none, none, none⟩ = some [] :=
  ⟨c6_label_derivation_amended.2.2 r1 "01".toList "01".toList "2025".toList
      "10".toList "00".toList "00".toList rfl (by decide) (by decide) (by decide)
      (by decide) (by decide) (by decide) (by decide) (by decide) (by decide)
      (by decide) (by decide),
    c6_label_derivation_amended.1 ⟨none, none, none, none⟩ (Or.inl rfl)⟩

-- ===========================================================================
-- C1
-- ===========================================================================

/-- A successful `mapM` over `Option` preserves the length. -/
theorem mapM_some_length {α β : Type} (f : α → Option β) :
    ∀ (l : List α) (r : List β), l.mapM f = some r → r.length = l.length := by
  intro l
  induction l with
  | nil =>
    intro r h
    simp only [List.mapM_nil, pure, Option.some.injEq] at h
    subst h
    rfl
  | cons a l ih =>
    intro r h
    rw [List.mapM_cons] at h
    cases hfa : f a with
    | none => rw [hfa] at h; simp at h
    | some b =>
      rw [hfa] at h
      cases hml : l.mapM f with
      | none => rw [hml] at h; simp at h
      | some bs =>
        rw [hml] at h
        simp at h
        subst h
        simp [ih bs hml]

theorem ucr_preserves (s : DashState) (data : List Reading) :
    (updateCurrentReadings s data).timeCategories = s.timeCategories ∧
    (updateCurrentReadings s data).temperatureData = s.temperatureData ∧
    (updateCurrentReadings s data).humidityData = s.humidityData ∧
    (updateCurrentReadings s data).pressureData = s.pressureData ∧
    (updateCurrentReadings s data).allSensorData = s.allSensorData ∧
    (updateCurrentReadings s data).isFilterActive = s.isFilterActive ∧
    (updateCurrentReadings s data).startDate = s.startDate ∧
    (updateCurrentReadings s data).endDate = s.endDate := by
  rw [updateCurrentReadings]
  cases data.getLast? with
  | none => exact ⟨rfl, rfl, rfl, rfl, rfl, rfl, rfl, rfl⟩
  | some latest => exact ⟨rfl, rfl, rfl, rfl, rfl, rfl, rfl, rfl⟩

theorem pads_preserves (s : DashState) (data : List Reading) :
    (processAndDisplayData s data).allSensorData = s.allSensorData ∧
    (processAndDisplayData s data).isFilterActive = s.isFilterActive ∧
    (processAndDisplayData s data).startDate = s.startDate ∧
    (processAndDisplayData s data).endDate = s.endDate := by
  rw [processAndDisplayData]
  cases h : data.isEmpty with
  | true => simp
  | false =>
    simp only [Bool.false_eq_true, if_false]
    cases hm : data.mapM labelOf with
    | none => exact ⟨rfl, rfl, rfl, rfl⟩
    | some labels =>
      obtain ⟨_, _, _, _, h5, h6, h7, h8⟩ := ucr_preserves
        { s with
          timeCategories := labels
          temperatureData := data.map (fun r => r.temperature.getD 0)
          humidityData := data.map (fun r => r.humidity.getD 0)
          pressureData := data.map (fun r => r.pressure.getD 0) } data
      exact ⟨h5, h6, h7, h8⟩

theorem filteredSensorData_congr (s t : DashState)
    (h1 : s.allSensorData = t.allSensorData)
    (h2 : s.isFilterActive = t.isFilterActive)
    (h3 : s.startDate = t.startDate) (h4 : s.endDate = t.endDate) :
    filteredSensorData s = filteredSensorData t := by
  rw [filteredSensorData, filteredSensorData, h1, h2, h3, h4]

theorem filteredSensorData_inactive (s : DashState) (h : s.isFilterActive = false) :
    filteredSensorData s = s.allSensorData := by
  rw [filteredSensorData, h]

theorem pushSnapshot_eq (s : DashState) (d : List Reading) :
    pushSnapshot s d =
      processAndDisplayData { s with allSensorData := d }
        (filteredSensorData { s with allSensorData := d }) := by
  rw [pushSnapshot]
  by_cases h : ({ s with allSensorData := d } : DashState).isFilterActive = false
  · rw [if_pos h, filteredSensorData_inactive _ h]
  · rw [if_neg h]

theorem aligned_pads (s : DashState) (data : List Reading) (hA : Aligned s) :
    Aligned (processAndDisplayData s data) := by
  rw [processAndDisplayData]
  cases h : data.isEmpty with
  | true => simpa using hA
  | false =>
    simp only [Bool.false_eq_true, if_false]
    cases hm : data.mapM labelOf with
    | none => exact hA
    | some labels =>
      obtain ⟨h1, h2, h3, h4, _⟩ := ucr_preserves
        { s with
          timeCategories := labels
          temperatureData := data.map (fun r => r.temperature.getD 0)
          humidityData := data.map (fun r => r.humidity.getD 0)
          pressureData := data.map (fun r => r.pressure.getD 0) } data
      refine ⟨?_, ?_, ?_⟩ <;>
        simp [h1, h2, h3, h4, mapM_some_length labelOf data labels hm]

theorem aligned_push (s : DashState) (d : List Reading) (hA : Aligned s) :
    Aligned (pushSnapshot s d) := by
  rw [pushSnapshot_eq]
  exact aligned_pads _ _ hA

/-- The state after pushing `[r1]` and then the empty snapshot. -/
def c1CexFinal : DashState := ([[r1], []] : List (List Reading)).foldl pushSnapshot initState

/-- C1 counterexample: pushing `[r1]` and then the empty snapshot leaves the
label sequence at its previous length 1 (the early return of
`processAndDisplayData`), while the filtered view of the final state is
empty, so the derived lengths do not equal the view's length after every
sequence of pushes. -/
theorem c1_push_length_counterexample :
    c1CexFinal.timeCategories.length = 1 ∧
    (filteredSensorData c1CexFinal).length = 0 ∧
    c1CexFinal.timeCategories.length ≠ (filteredSensorData c1CexFinal).length := by
  refine ⟨by decide, by decide, by decide⟩

/-- C1 (amended): after every sequence of pushes the three metric arrays and
the label sequence share one common length; and whenever a push's resulting
filtered view is nonempty and its label derivation does not throw, that
common length equals the filtered view's length.  (A push whose view is
empty, or whose label derivation throws, leaves the previous arrays
unchanged.) -/
theorem c1_push_alignment_amended :
    (∀ pushes : List (List Reading), Aligned (pushes.foldl pushSnapshot initState)) ∧
    (∀ (s : DashState) (d : List Reading),
      filteredSensorData (pushSnapshot s d) ≠ [] →
      ((filteredSensorData (pushSnapshot s d)).mapM labelOf).isSome = true →
      (pushSnapshot s d).timeCategories.length = (filteredSensorData (pushSnapshot s d)).length ∧
      (pushSnapshot s d).temperatureData.length = (filteredSensorData (pushSnapshot s d)).length ∧
      (pushSnapshot s d).humidityData.length = (filteredSensorData (pushSnapshot s d)).length ∧
      (pushSnapshot s d).pressureData.length = (filteredSensorData (pushSnapshot s d)).length) := by
  constructor
  · have hstep : ∀ (pushes : List (List Reading)) (s : DashState), Aligned s →
        Aligned (pushes.foldl pushSnapshot s) := by
      intro pushes
      induction pushes with
      | nil => intro s hA; exact hA
      | cons d rest ih => intro s hA; exact ih _ (aligned_push s d hA)
    exact fun pushes => hstep pushes initState ⟨rfl, rfl, rfl⟩
  · intro s d hne hsome
    have hview : filteredSensorData (pushSnapshot s d) =
        filteredSensorData { s with allSensorData := d } := by
      rw [pushSnapshot_eq]
      obtain ⟨h1, h2, h3, h4⟩ := pads_preserves { s with allSensorData := d }
        (filteredSensorData { s with allSensorData := d })
      exact filteredSensorData_congr _ _ h1 h2 h3 h4
    rw [hview] at hne hsome ⊢
    rw [pushSnapshot_eq]
    have hvne : (filteredSensorData { s with allSensorData := d }).isEmpty = false := by
      cases hcv : filteredSensorData { s with allSensorData := d } with
      | nil => exact absurd hcv hne
      | cons a as => rfl
    rw [processAndDisplayData, hvne]
    simp only [Bool.false_eq_true, if_false]
    cases hm : (filteredSensorData { s with allSensorData := d }).mapM labelOf with
    | none => rw [hm] at hsome; exact absurd hsome (by simp)
    | some labels =>
      obtain ⟨h1, h2, h3, h4, _⟩ := ucr_preserves
        { ({ s with allSensorData := d } : DashState) with
          timeCategories := labels
          temperatureData := (filteredSensorData { s with allSensorData := d }).map (fun r => r.temperature.getD 0)
          humidityData := (filteredSensorData { s with allSensorData := d }).map (fun r => r.humidity.getD 0)
          pressureData := (filteredSensorData { s with allSensorData := d }).map (fun r => r.pressure.getD 0) }
        (filteredSensorData { s with allSensorData := d })
      rw [h1, h2, h3, h4]
      simp [mapM_some_length labelOf _ labels hm]

/-- Witness for C1 (amended): pushing `[r1]` onto the initial state gives a
nonempty, label-derivable view, and the label sequence length then equals the
view's length. -/
theorem c1_push_alignment_amended_witness :
    filteredSensorData (pushSnapshot initState [r1]) ≠ [] ∧
    ((filteredSensorData (pushSnapshot initState [r1])).mapM labelOf).isSome = true ∧
    (pushSnapshot initState [r1]).timeCategories.length =
      (filteredSensorData (pushSnapshot initState [r1])).length :=
  ⟨by decide, by decide, (c1_push_alignment_amended.2 initState [r1] (by decide) (by decide)).1⟩

-- ===========================================================================
-- Sync coordinator: extremes propagation (C3, C8)
-- ===========================================================================

/-- One member of the extremes sync group, seen through the only field
`syncExtremes` reads of it: whether `chart.xAxis[0].setExtremes` is a truthy
(callable) property. -/
structure SChart where
  canSetExtremes : Bool
deriving DecidableEq

/-- The synthetic origin marker `'syncExtremes'` used to tag propagated
`setExtremes` calls. -/
def syncTag : List Char := "syncExtremes".toList

/-- An extremes-change event as delivered to `syncExtremes`: the optional
`trigger` tag and the new extremes (absent on a reset). -/
structure ExtEvent where
  trigger : Option (List Char)
  emin : Option Int
  emax : Option Int
deriving DecidableEq

/-- One `setExtremes(min, max, undefined, false, { trigger })` call emitted
by the coordinator, aimed at the group member at index `target`. -/
structure ExtCall where
  target : Nat
  cmin : Option Int
  cmax : Option Int
  trigger : Option (List Char)
deriving DecidableEq

/-- The `allCharts.forEach` loop of `syncExtremes` (lines 482-486), walking
the member list from position `i`: every member other than the originating
chart whose axis exposes `setExtremes` receives the event's extremes tagged
with the synthetic marker. -/
def broadcastFrom (e : ExtEvent) (origin : Nat) : Nat → List SChart → List ExtCall
  | _, [] => []
  | i, c :: rest =>
    (if i ≠ origin ∧ c.canSetExtremes = true then
      [⟨i, e.emin, e.emax, some syncTag⟩] else []) ++ broadcastFrom e origin (i + 1) rest

/-- `syncExtremes` (lines 472-487): a change already tagged as synthetic is
not re-broadcast; otherwise the group `[...charts, combinedChart]` minus the
originator receives tagged `setExtremes` calls. -/
def syncExtremes (e : ExtEvent) (origin : Nat) (charts : List SChart)
    (combinedChart : Option SChart) : List ExtCall :=
  if e.trigger = some syncTag then []
  else broadcastFrom e origin 0 (charts ++ combinedChart.toList)

/-- `idxList s n` is the index sequence `[s, s+1, ..., s+n-1]`. -/
def idxList : Nat → Nat → List Nat
  | _, 0 => []
  | s, n + 1 => s :: idxList (s + 1) n

/-- Every call the broadcast loop emits carries the synthetic marker. -/
theorem broadcastFrom_trigger (e : ExtEvent) (origin : Nat) :
    ∀ (l : List SChart) (i : Nat) (c : ExtCall), c ∈ broadcastFrom e origin i l →
      c.trigger = some syncTag := by
  intro l
  induction l with
  | nil => intro i c h; exact absurd h (List.not_mem_nil c)
  | cons c0 rest ih =>
    intro i c h
    rw [broadcastFrom] at h
    rcases List.mem_append.mp h with h1 | h1
    · by_cases hc : i ≠ origin ∧ c0.canSetExtremes = true
      · rw [if_pos hc] at h1
        rcases List.mem_singleton.mp h1 with rfl
        rfl
      · rw [if_neg hc] at h1
        exact absurd h1 (List.not_mem_nil c)
    · exact ih (i + 1) c h1

/-- With every member's `setExtremes` available, the broadcast loop hits
exactly the member indices other than the originator, in order. -/
theorem broadcastFrom_all_live (e : ExtEvent) (origin : Nat) :
    ∀ (l : List SChart) (i : Nat), (∀ c ∈ l, c.canSetExtremes = true) →
      broadcastFrom e origin i l =
        ((idxList i l.length).filter (fun j => j != origin)).map
          (fun j => ⟨j, e.emin, e.emax, some syncTag⟩) := by
  intro l
  induction l with
  | nil => intro i _; rfl
  | cons c0 rest ih =>
    intro i hlive
    have hc0 : c0.canSetExtremes = true := hlive c0 (List.mem_cons_self c0 rest)
    have hrest : ∀ c ∈ rest, c.canSetExtremes = true :=
      fun c hc => hlive c (List.mem_cons_of_mem c0 hc)
    rw [broadcastFrom, ih (i + 1) hrest]
    simp only [List.length_cons, idxList, List.filter_cons]
    by_cases hio : i = origin
    · subst hio
      simp [hc0]
    · have : (i != origin) = true := by simp [hio]
      simp [this, hio, hc0]

/-- C3: an extremes change tagged with the synthetic origin marker is never
re-broadcast (`syncExtremes` returns without emitting any call), and every
call emitted by a non-synthetic change carries that marker, so any chain of
change events reaches a fixed point after one broadcast generation. -/
theorem c3_synthetic_fixed_point :
    (∀ (e : ExtEvent) (origin : Nat) (charts : List SChart) (comb : Option SChart),
      e.trigger = some syncTag → syncExtremes e origin charts comb = []) ∧
    (∀ (e : ExtEvent) (origin : Nat) (charts : List SChart) (comb : Option SChart)
      (c : ExtCall), c ∈ syncExtremes e origin charts comb →
      syncExtremes ⟨c.trigger, c.cmin, c.cmax⟩ c.target charts comb = []) := by
  constructor
  · intro e origin charts comb h
    rw [syncExtremes, if_pos h]
  · intro e origin charts comb c hc
    rw [syncExtremes] at hc
    by_cases he : e.trigger = some syncTag
    · rw [if_pos he] at hc
      exact absurd hc (List.not_mem_nil c)
    · rw [if_neg he] at hc
      have ht := broadcastFrom_trigger e origin _ 0 c hc
      rw [syncExtremes, if_pos ht]

/-- Witness for C3: in a group of three views, a non-synthetic event on view
0 emits a tagged call to view 1, and replaying that call as a change event on
view 1 broadcasts nothing. -/
theorem c3_witness :
    (⟨1, some 1, some 5, some syncTag⟩ : ExtCall) ∈
      syncExtremes ⟨none, some 1, some 5⟩ 0 [⟨true⟩, ⟨true⟩, ⟨true⟩] none ∧
    syncExtremes ⟨some syncTag, some 1, some 5⟩ 1 [⟨true⟩, ⟨true⟩, ⟨true⟩] none = [] :=
  ⟨by decide,
    c3_synthetic_fixed_point.2 ⟨none, some 1, some 5⟩ 0 [⟨true⟩, ⟨true⟩, ⟨true⟩] none
      ⟨1, some 1, some 5, some syncTag⟩ (by decide)⟩

/-- C8: a non-synthetic extremes change with concrete min and max makes the
coordinator call `setExtremes(min, max)` on exactly the members of the sync
group other than the originating view, each call tagged with the synthetic
origin marker. -/
theorem c8_extremes_broadcast (e : ExtEvent) (origin : Nat) (charts : List SChart)
    (comb : Option SChart) (m M : Int)
    (ht : e.trigger ≠ some syncTag) (hm : e.emin = some m) (hM : e.emax = some M)
    (hlive : ∀ c ∈ charts ++ comb.toList, c.canSetExtremes = true) :
    syncExtremes e origin charts comb =
      ((idxList 0 (charts ++ comb.toList).length).filter (fun j => j != origin)).map
        (fun j => ⟨j, some m, some M, some syncTag⟩) := by
  rw [syncExtremes, if_neg ht, broadcastFrom_all_live e origin _ 0 hlive, hm, hM]

/-- Witness for C8: a zoom event on view 0 of a four-member group (three
metric views plus the combined view) yields tagged calls to members 1, 2
and 3. -/
theorem c8_witness :
    (⟨some ("zoom".toList), some 2, some 7⟩ : ExtEvent).trigger ≠ some syncTag ∧
    syncExtremes ⟨some ("zoom".toList), some 2, some 7⟩ 0
        [⟨true⟩, ⟨true⟩, ⟨true⟩] (some ⟨true⟩) =
      [⟨1, some 2, some 7, some syncTag⟩, ⟨2, some 2, some 7, some syncTag⟩,
        ⟨3, some 2, some 7, some syncTag⟩] :=
  ⟨by decide,
    c8_extremes_broadcast ⟨some ("zoom".toList), some 2, some 7⟩ 0
      [⟨true⟩, ⟨true⟩, ⟨true⟩] (some ⟨true⟩) 2 7 (by decide) rfl rfl (by decide)⟩


-- ===========================================================================
-- Sync coordinator: tooltip propagation (C7)
-- ===========================================================================

/-- One member of the tooltip sync group, seen through the fields
`syncTooltip` reads: whether `chart.series[0]` is truthy, and how many points
that series holds. -/
structure TChart where
  hasSeries0 : Bool
  pointCount : Nat
deriving DecidableEq

/-- Model of `chart.series[0].searchPoint(e, true)` at the rendering-library
boundary (spec section 6): the pointer position already resolved to category
index `k` hits the chart's point at `k` when the series extends that far. -/
def searchPointIdx (k : Nat) (c : TChart) : Option Nat :=
  if k < c.pointCount then some k else none

/-- The `charts.forEach` loop of `syncTooltip` (lines 460-468) from member
index `i`: each chart with a truthy first series and a resolved point gets
one `onMouseOver`/`tooltip.refresh`/`drawCrosshair` triple — one
`showTooltipAt` call, recorded as `(member index, point index)`. -/
def tooltipCalls (k : Nat) : Nat → List TChart → List (Nat × Nat)
  | _, [] => []
  | i, c :: rest =>
    (if c.hasSeries0 = true then
      match searchPointIdx k c with
      | some j => [(i, j)]
      | none => []
    else []) ++ tooltipCalls k (i + 1) rest

/-- `syncTooltip` (lines 459-469): iterates over the `charts` array only;
the `combinedChart` member of the sync group (index `charts.length` in the
group) is never visited by this loop. -/
def syncTooltip (k : Nat) (charts : List TChart) (combinedChart : Option TChart) :
    List (Nat × Nat) :=
  tooltipCalls k 0 charts

/-- Every tooltip call targets a visited member and carries the resolved
index. -/
theorem tooltipCalls_targets (k : Nat) :
    ∀ (l : List TChart) (i : Nat) (p : Nat × Nat), p ∈ tooltipCalls k i l →
      i ≤ p.1 ∧ p.1 < i + l.length ∧ p.2 = k := by
  intro l
  induction l with
  | nil => intro i p h; exact absurd h (List.not_mem_nil p)
  | cons c0 rest ih =>
    intro i p h
    rw [tooltipCalls] at h
    rcases List.mem_append.mp h with h1 | h1
    · by_cases hs : c0.hasSeries0 = true
      · rw [if_pos hs] at h1
        by_cases hk : k < c0.pointCount
        · rw [searchPointIdx, if_pos hk] at h1
          rcases List.mem_singleton.mp h1 with rfl
          exact ⟨Nat.le_refl i, by simp only [List.length_cons]; omega, rfl⟩
        · rw [searchPointIdx, if_neg hk] at h1
          exact absurd h1 (List.not_mem_nil p)
      · rw [if_neg hs] at h1
        exact absurd h1 (List.not_mem_nil p)
    · obtain ⟨ha, hb, hc⟩ := ih (i + 1) p h1
      exact ⟨by omega, by simp only [List.length_cons]; omega, hc⟩

/-- A live member with a resolvable point receives exactly one call. -/
theorem tooltipCalls_count (k : Nat) :
    ∀ (l : List TChart) (i j : Nat) (c : TChart), l[j]? = some c →
      c.hasSeries0 = true → k < c.pointCount →
      (tooltipCalls k i l).count (i + j, k) = 1 := by
  intro l
  induction l with
  | nil => intro i j c h; simp at h
  | cons c0 rest ih =>
    intro i j c hj hs hk
    rw [tooltipCalls, List.count_append]
    cases j with
    | zero =>
      simp only [List.getElem?_cons_zero, Option.some.injEq] at hj
      subst hj
      rw [if_pos hs, searchPointIdx, if_pos hk]
      have hz : (tooltipCalls k (i + 1) rest).count (i + 0, k) = 0 := by
        rw [List.count_eq_zero]
        intro hmem
        obtain ⟨ha, _, _⟩ := tooltipCalls_targets k rest (i + 1) _ hmem
        omega
      rw [hz]
      simp
    | succ j' =>
      have hrest : rest[j']? = some c := by simpa using hj
      have hhead :
          (if c0.hasSeries0 = true then
            match searchPointIdx k c0 with
            | some j => [(i, j)]
            | none => []
          else []).count (i + (j' + 1), k) = 0 := by
        by_cases h0 : c0.hasSeries0 = true
        · rw [if_pos h0]
          by_cases hk0 : k < c0.pointCount
          · rw [searchPointIdx, if_pos hk0]
            rw [List.count_eq_zero]
            intro hmem
            rw [List.mem_singleton, Prod.mk.injEq] at hmem
            omega
          · rw [searchPointIdx, if_neg hk0]
            rfl
        · rw [if_neg h0]
          rfl
      rw [hhead]
      have harith : i + (j' + 1) = (i + 1) + j' := by omega
      rw [harith, ih (i + 1) j' c hrest hs hk]

/-- A member without a truthy first series receives no call at all. -/
theorem tooltipCalls_dead (k : Nat) :
    ∀ (l : List TChart) (i j : Nat) (c : TChart), l[j]? = some c →
      c.hasSeries0 = false → ∀ m, (i + j, m) ∉ tooltipCalls k i l := by
  intro l
  induction l with
  | nil => intro i j c h; simp at h
  | cons c0 rest ih =>
    intro i j c hj hs m hmem
    rw [tooltipCalls] at hmem
    rcases List.mem_append.mp hmem with h1 | h1
    · cases j with
      | zero =>
        simp only [List.getElem?_cons_zero, Option.some.injEq] at hj
        subst hj
        rw [if_neg (by simp [hs])] at h1
        exact absurd h1 (List.not_mem_nil _)
      | succ j' =>
        by_cases h0 : c0.hasSeries0 = true
        · rw [if_pos h0] at h1
          by_cases hk0 : k < c0.pointCount
          · rw [searchPointIdx, if_pos hk0] at h1
            rw [List.mem_singleton, Prod.mk.injEq] at h1
            omega
          · rw [searchPointIdx, if_neg hk0] at h1
            exact absurd h1 (List.not_mem_nil _)
        · rw [if_neg h0] at h1
          exact absurd h1 (List.not_mem_nil _)
    · cases j with
      | zero =>
        obtain ⟨ha, _, _⟩ := tooltipCalls_targets k rest (i + 1) _ h1
        omega
      | succ j' =>
        have hrest : rest[j']? = some c := by simpa using hj
        have harith : i + (j' + 1) = (i + 1) + j' := by omega
        rw [harith] at h1
        exact ih (i + 1) j' c hrest hs m h1

/-- A live chart whose first series has three points. -/
def tc3 : TChart := ⟨true, 3⟩

/-- C7 counterexample: with three live metric views and a live combined
view, a pointer move resolved to index 1 produces tooltip calls on members
0, 1 and 2 only — the combined view (member 3 of the sync group) receives
zero `showTooltipAt` calls, not exactly one as claimed. -/
theorem c7_combined_cex :
    syncTooltip 1 [tc3, tc3, tc3] (some tc3) = [(0, 1), (1, 1), (2, 1)] ∧
    (syncTooltip 1 [tc3, tc3, tc3] (some tc3)).count (3, 1) = 0 := by
  refine ⟨by decide, by decide⟩

/-- C7 (amended): a pointer move resolved to index `k` makes every live
individual metric view whose series reaches `k` report `showTooltipAt(k)`
exactly once per move event; members without a live first series are
silently skipped; and no call ever targets the combined view, which the
tooltip loop does not visit. -/
theorem c7_tooltip_amended (k : Nat) (charts : List TChart) (comb : Option TChart) :
    (∀ (i : Nat) (c : TChart), charts[i]? = some c → c.hasSeries0 = true →
      k < c.pointCount → (syncTooltip k charts comb).count (i, k) = 1) ∧
    (∀ (i : Nat) (c : TChart), charts[i]? = some c → c.hasSeries0 = false →
      ∀ m, (i, m) ∉ syncTooltip k charts comb) ∧
    (∀ p ∈ syncTooltip k charts comb, p.1 < charts.length ∧ p.2 = k) := by
  refine ⟨?_, ?_, ?_⟩
  · intro i c hi hs hk
    have := tooltipCalls_count k charts 0 i c hi hs hk
    simpa using this
  · intro i c hi hs m
    have := tooltipCalls_dead k charts 0 i c hi hs m
    simpa using this
  · intro p hp
    obtain ⟨_, hb, hc⟩ := tooltipCalls_targets k charts 0 p hp
    exact ⟨by omega, hc⟩

/-- Witness for C7 (amended): in the three-view group, member 1 receives
the call for index 1 exactly once. -/
theorem c7_witness :
    ([tc3, tc3, tc3] : List TChart)[1]? = some tc3 ∧
    tc3.hasSeries0 = true ∧ (1 : Nat) < tc3.pointCount ∧
    (syncTooltip 1 [tc3, tc3, tc3] (some tc3)).count (1, 1) = 1 :=
  ⟨rfl, rfl, by decide,
    (c7_tooltip_amended 1 [tc3, tc3, tc3] (some tc3)).1 1 tc3 rfl rfl (by decide)⟩


-- ===========================================================================
-- Sync coordinator: reset propagation guard (C2)
-- ===========================================================================

/-- One member of the reset sync group as `syncResetZoom` sees it: the
current extremes of its x axis (`none` when fully zoomed out) and whether the
chart and its axis still exist (`chart && chart.xAxis && chart.xAxis[0]`). -/
structure CChart where
  extremes : Option (Int × Int)
  live : Bool
deriving DecidableEq

/-- The coordinator state during reset propagation: the module-level
`isResetting` guard flag (`Resetting` when true, `Idle` when false) and the
sync group (`charts` plus the optional `combinedChart`). -/
structure CoordState where
  isResetting : Bool
  charts : List CChart
  combined : Option CChart
deriving DecidableEq

/-- A handler invocation: an `afterSetExtremes` event report carrying the
resulting extremes (both absent on a reset report), or a `syncResetZoom`
entry. -/
inductive CoordCall
  | afterSet (emin emax : Option Int)
  | resetZoom
deriving DecidableEq

/-- Executes one handler invocation of the reset machinery
(`afterSetExtremes`, lines 511-516, and `syncResetZoom`, lines 490-508) and
returns the resulting state together with the number of times the
`syncResetZoom` body was entered (the recursion depth of the reset pass).
Clearing a member's extremes with `setExtremes(null, null)` makes the
rendering surface fire that member's `afterSetExtremes` with both extremes
absent (spec section 6), which re-enters the handler synchronously; `fuel`
bounds that nesting so the interpreter is total, and the theorems below hold
for every fuel, so no behavior is hidden by fuel exhaustion. -/
def coordRun : Nat → CoordState → CoordCall → CoordState × Nat
  | 0, s, _ => (s, 0)
  | fuel + 1, s, CoordCall.afterSet mn mx =>
    if mn.isNone && mx.isNone && !s.isResetting then coordRun fuel s CoordCall.resetZoom
    else (s, 0)
  | fuel + 1, s, CoordCall.resetZoom =>
    if s.isResetting then (s, 0)
    else
      let s1 : CoordState := ⟨true, s.charts, s.combined⟩
      let p1 := (idxList 0 s1.charts.length).foldl (fun acc i =>
        match acc.1.charts[i]? with
        | some c =>
          if c.live then
            let st1 : CoordState := ⟨acc.1.isResetting, acc.1.charts.set i ⟨none, true⟩, acc.1.combined⟩
            let r := coordRun fuel st1 (CoordCall.afterSet none none)
            (r.1, acc.2 + r.2)
          else acc
        | none => acc) (s1, 0)
      let p2 := match p1.1.combined with
        | some c =>
          if c.live then
            let st1 : CoordState := ⟨p1.1.isResetting, p1.1.charts, some ⟨none, true⟩⟩
            let r := coordRun fuel st1 (CoordCall.afterSet none none)
            (r.1, p1.2 + r.2)
          else p1
        | none => p1
      (⟨false, p2.1.charts, p2.1.combined⟩, p2.2 + 1)

/-- What one reset pass does to a member: a live chart has its extremes
cleared; a destroyed chart is skipped. -/
def clearLive (c : CChart) : CChart := if c.live then ⟨none, true⟩ else c

/-- The body of the `charts.forEach` reset loop (lines 496-500), named so
the theorems can speak about it; identical to the lambda inside `coordRun`.
-/
def resetStep (fuel : Nat) (acc : CoordState × Nat) (i : Nat) : CoordState × Nat :=
  match acc.1.charts[i]? with
  | some c =>
    if c.live then
      let st1 : CoordState := ⟨acc.1.isResetting, acc.1.charts.set i ⟨none, true⟩, acc.1.combined⟩
      let r := coordRun fuel st1 (CoordCall.afterSet none none)
      (r.1, acc.2 + r.2)
    else acc
  | none => acc

/-- The combined-chart reset step (lines 503-505), named for the theorems;
identical to the corresponding part of `coordRun`. -/
def combinedResetStep (fuel : Nat) (p1 : CoordState × Nat) : CoordState × Nat :=
  match p1.1.combined with
  | some c =>
    if c.live then
      let st1 : CoordState := ⟨p1.1.isResetting, p1.1.charts, some ⟨none, true⟩⟩
      let r := coordRun fuel st1 (CoordCall.afterSet none none)
      (r.1, p1.2 + r.2)
    else p1
  | none => p1

/-- Clearing the extremes of the member at index `i`, when it is live. -/
def clearAt (cs : List CChart) (i : Nat) : List CChart :=
  match cs[i]? with
  | some c => if c.live then cs.set i ⟨none, true⟩ else cs
  | none => cs

/-- Clearing the members at indices `strt, ..., strt+cnt-1` in order. -/
def clearSeg (strt cnt : Nat) (cs : List CChart) : List CChart :=
  (idxList strt cnt).foldl clearAt cs

/-- While the guard flag is set, an `afterSetExtremes` report is ignored:
the state is untouched and the reset pass is not re-entered. -/
theorem coordRun_ignores_when_resetting (f : Nat) (st : CoordState)
    (mn mx : Option Int) (h : st.isResetting = true) :
    coordRun f st (CoordCall.afterSet mn mx) = (st, 0) := by
  cases f with
  | zero => rfl
  | succ f =>
    have hcond : (mn.isNone && mx.isNone && !st.isResetting) = false := by
      rw [h]
      simp
    simp only [coordRun, hcond, Bool.false_eq_true, if_false]

/-- From `Idle`, a reset report (both extremes absent) enters the reset
pass. -/
theorem coordRun_afterSet_step (fuel : Nat) (cs : List CChart) (comb : Option CChart) :
    coordRun (fuel + 1) ⟨false, cs, comb⟩ (CoordCall.afterSet none none) =
      coordRun fuel ⟨false, cs, comb⟩ CoordCall.resetZoom := by
  simp only [coordRun, Option.isNone_none, Bool.not_false, Bool.and_true, if_true]

/-- Unfolding of the reset pass into its two named phases. -/
theorem coordRun_resetZoom_eq (fuel : Nat) (cs : List CChart) (comb : Option CChart) :
    coordRun (fuel + 1) ⟨false, cs, comb⟩ CoordCall.resetZoom =
      ((⟨false,
          (combinedResetStep fuel
            ((idxList 0 cs.length).foldl (resetStep fuel) (⟨true, cs, comb⟩, 0))).1.charts,
          (combinedResetStep fuel
            ((idxList 0 cs.length).foldl (resetStep fuel) (⟨true, cs, comb⟩, 0))).1.combined⟩ :
          CoordState),
        (combinedResetStep fuel
          ((idxList 0 cs.length).foldl (resetStep fuel) (⟨true, cs, comb⟩, 0))).2 + 1) := rfl

theorem idxList_zero (s : Nat) : idxList s 0 = [] := rfl

theorem idxList_succ (s n : Nat) : idxList s (n + 1) = s :: idxList (s + 1) n := rfl

theorem clearAt_cons_succ (c : CChart) (cs : List CChart) (i : Nat) :
    clearAt (c :: cs) (i + 1) = c :: clearAt cs i := by
  rw [clearAt, clearAt]
  simp only [List.getElem?_cons_succ]
  cases h : cs[i]? with
  | none => rfl
  | some c0 =>
    by_cases hl : c0.live = true
    · simp [hl, List.set]
    · simp [hl]

theorem clearAt_cons_zero (c : CChart) (cs : List CChart) :
    clearAt (c :: cs) 0 = clearLive c :: cs := by
  rw [clearAt, clearLive]
  simp only [List.getElem?_cons_zero]
  by_cases hl : c.live = true
  · simp [hl, List.set]
  · simp [hl]

theorem clearSeg_shift (cnt : Nat) :
    ∀ (strt : Nat) (c : CChart) (cs : List CChart),
      clearSeg (strt + 1) cnt (c :: cs) = c :: clearSeg strt cnt cs := by
  induction cnt with
  | zero => intro strt c cs; rfl
  | succ cnt ih =>
    intro strt c cs
    rw [clearSeg, idxList_succ, List.foldl_cons, clearAt_cons_succ]
    rw [clearSeg, idxList_succ, List.foldl_cons]
    exact ih (strt + 1) c (clearAt cs strt)

theorem clearSeg_full : ∀ cs : List CChart, clearSeg 0 cs.length cs = cs.map clearLive := by
  intro cs
  induction cs with
  | nil => rfl
  | cons c rest ih =>
    rw [List.length_cons, clearSeg, idxList_succ, List.foldl_cons, clearAt_cons_zero]
    rw [show (idxList 1 rest.length).foldl clearAt (clearLive c :: rest) =
          clearSeg (0 + 1) rest.length (clearLive c :: rest) from rfl]
    rw [clearSeg_shift, ih, List.map_cons]

/-- With the guard flag set, the member loop just clears each live member:
every `afterSetExtremes` report fired by the clearing is ignored, no depth is
accumulated, and the flag stays set. -/
theorem resetLoop_clears (fuel : Nat) :
    ∀ (cnt strt : Nat) (st : CoordState) (d : Nat), st.isResetting = true →
      (idxList strt cnt).foldl (resetStep fuel) (st, d) =
        (⟨true, clearSeg strt cnt st.charts, st.combined⟩, d) := by
  intro cnt
  induction cnt with
  | zero =>
    intro strt st d h
    obtain ⟨ir, cs, cb⟩ := st
    cases h
    rfl
  | succ cnt ih =>
    intro strt st d h
    rw [idxList_succ, List.foldl_cons]
    have hstep : resetStep fuel (st, d) strt =
        (⟨true, clearAt st.charts strt, st.combined⟩, d) := by
      rw [resetStep, clearAt]
      cases hc : st.charts[strt]? with
      | none =>
        obtain ⟨ir, cs, cb⟩ := st
        cases h
        rfl
      | some c0 =>
        by_cases hl : c0.live = true
        · simp only [hl, if_true]
          rw [coordRun_ignores_when_resetting fuel _ none none (by exact h)]
          obtain ⟨ir, cs, cb⟩ := st
          cases h
          simp
        · simp only [hl, if_false]
          obtain ⟨ir, cs, cb⟩ := st
          cases h
          simp [hl]
    rw [hstep]
    rw [ih (strt + 1) ⟨true, clearAt st.charts strt, st.combined⟩ d rfl]
    simp only [clearSeg, idxList_succ, List.foldl_cons]

/-- C2: for a group of at least two member views in `Idle`, a reset report
runs the reset pass to completion: the guard flag makes every reset report
produced while clearing the members be ignored (second conjunct), the
`syncResetZoom` body is entered exactly once — the propagation never recurses
beyond one level — every live member ends fully zoomed out, and the
coordinator terminates back in `Idle`; all of this for every fuel bound. -/
theorem c2_reset_guard (fuel : Nat) (cs : List CChart) (comb : Option CChart)
    (hN : 2 ≤ cs.length + comb.toList.length) :
    (coordRun (fuel + 2) ⟨false, cs, comb⟩ (CoordCall.afterSet none none) =
      (⟨false, cs.map clearLive, comb.map clearLive⟩, 1)) ∧
    (∀ (f : Nat) (st : CoordState) (mn mx : Option Int), st.isResetting = true →
      coordRun f st (CoordCall.afterSet mn mx) = (st, 0)) := by
  refine ⟨?_, coordRun_ignores_when_resetting⟩
  rw [coordRun_afterSet_step (fuel + 1) cs comb, coordRun_resetZoom_eq fuel cs comb]
  rw [resetLoop_clears fuel cs.length 0 ⟨true, cs, comb⟩ 0 rfl]
  rw [show (⟨true, cs, comb⟩ : CoordState).charts = cs from rfl]
  rw [clearSeg_full cs]
  cases comb with
  | none => rfl
  | some c =>
    by_cases hl : c.live = true
    · rw [combinedResetStep]
      simp only [hl, if_true]
      rw [coordRun_ignores_when_resetting fuel _ none none rfl]
      simp [Option.map_some, clearLive, hl]
    · rw [combinedResetStep]
      simp only [hl, if_false]
      simp [Option.map_some, clearLive, hl]

/-- Witness for C2: a three-member group (two metric views, one zoomed and
one not, plus a zoomed combined view) processes a reset report to the fully
reset `Idle` state at depth exactly 1. -/
theorem c2_reset_guard_witness :
    2 ≤ ([⟨some (1, 5), true⟩, ⟨none, true⟩] : List CChart).length +
        (some (⟨some (0, 3), true⟩ : CChart)).toList.length ∧
    coordRun 2 ⟨false, [⟨some (1, 5), true⟩, ⟨none, true⟩], some ⟨some (0, 3), true⟩⟩
        (CoordCall.afterSet none none) =
      (⟨false, [⟨none, true⟩, ⟨none, true⟩], some ⟨none, true⟩⟩, 1) :=
  ⟨by decide,
    (c2_reset_guard 0 [⟨some (1, 5), true⟩, ⟨none, true⟩] (some ⟨some (0, 3), true⟩)
      (by decide)).1⟩

end FoodMonitor
